import Mathlib

/-!
Verification development for the telegraph image uploader (`src/app.js`).

The embedding models the resumable upload pipeline (`uploadFile`,
`concurrentUpload`), the checkpoint-resume logic and document-assembly
protocol of `main`, and the content trees built in `createTelegraphPage`
and in `main`'s `editTelegraphPage` call.  Network responses are supplied
by oracles (one `Except` result per attempt), file-system effects by an
`Env` record; external HTTP calls performed by a run are collected in a
`Call` trace and the individual upload HTTP calls additionally in an event
trace (`Ev.start`/`Ev.finish` bracketing each awaited `axios.post`).
-/

/-- Configuration constant `CONFIG.BASE_URL` from `src/app.js`. -/
def CONFIG_BASE_URL : String := "https://im.gurl.eu.org"

/-- Configuration constant `CONFIG.CONCURRENCY` from `src/app.js`. -/
def CONFIG_CONCURRENCY : Nat := 10

/-- Configuration constant `CONFIG.RETRY_TIMES` from `src/app.js`. -/
def CONFIG_RETRY_TIMES : Nat := 10

/-- The result object built by `uploadFile` in `src/app.js`: on success
`{filename, url, status: "success", retries}` (the `error` field absent,
modelled as `none`), on exhaustion
`{filename, url: null, status: "error", error, retries}`. -/
structure UploadOutcome where
  filename : String
  url : Option String
  status : String
  error : Option String
  retries : Nat
deriving Repr, DecidableEq

/-- One event per awaited upload HTTP call (`axios.post` in `uploadFile`):
the call is issued (`start`) and its promise settles (`finish`, whether by
fulfilment or rejection).  Because the call is awaited inside the `try`,
the two events of one attempt are adjacent in any trace. -/
inductive Ev where
  | start (file : String)
  | finish (file : String)
deriving Repr, DecidableEq

/-- Network oracle for one task: for attempt number `retryCount` it yields
either the `src` path extracted from the image-host response
(`response.data[0].src`) or the message of the error thrown inside the
`try` block (non-2xx status, malformed response body, stream error …). -/
abbrev AttemptOracle := Nat → Except String String

/-- The `while (retryCount <= CONFIG.RETRY_TIMES)` loop of `uploadFile`.
`fuel` encodes the loop guard: the loop body may run at most
`retryTimes + 1 - retryCount` more times, and `fuel = 0` is the guard
failing, where the JS function would fall off the loop and return
`undefined` (modelled as `none`; unreachable from `uploadFile`'s entry,
see `uploadFile_spec`).  The first component is the trace of upload HTTP
calls performed, the second the returned outcome. -/
def uploadFileLoop (retryTimes : Nat) (baseUrl file : String) (oracle : AttemptOracle) :
    Nat → Nat → List Ev × Option UploadOutcome
  | 0, _ => ([], none)
  | fuel + 1, retryCount =>
    match oracle retryCount with
    | Except.ok src =>
        ([Ev.start file, Ev.finish file],
         some { filename := file, url := some (baseUrl ++ src), status := "success",
                error := none, retries := retryCount })
    | Except.error msg =>
        if retryCount = retryTimes then
          ([Ev.start file, Ev.finish file],
           some { filename := file, url := none, status := "error",
                  error := some msg, retries := retryCount })
        else
          -- `await setTimeout(RETRY_DELAY)` suspends only this task, then
          -- `retryCount++` and the loop re-enters.
          let rest := uploadFileLoop retryTimes baseUrl file oracle fuel (retryCount + 1)
          (Ev.start file :: Ev.finish file :: rest.1, rest.2)

/-- `uploadFile(file, …)` from `src/app.js`: enters the retry loop with
`retryCount = 0`. -/
def uploadFile (retryTimes : Nat) (baseUrl file : String) (oracle : AttemptOracle) :
    List Ev × Option UploadOutcome :=
  uploadFileLoop retryTimes baseUrl file oracle (retryTimes + 1) 0

/-- `concurrentUpload(files)` from `src/app.js`: despite its name the loop
body is `const result = await uploadFile(files[i], i, total); results.push(result)`,
so each task is awaited to completion before the next one starts; the
event trace is the concatenation of the per-task traces and the results
array collects the outcomes in input order. -/
def concurrentUpload (retryTimes : Nat) (baseUrl : String)
    (oracle : String → AttemptOracle) :
    List String → List Ev × List (Option UploadOutcome)
  | [] => ([], [])
  | file :: rest =>
      let r := uploadFile retryTimes baseUrl file (oracle file)
      let rs := concurrentUpload retryTimes baseUrl oracle rest
      (r.1 ++ rs.1, r.2 :: rs.2)

/-- Main correctness lemma for the retry loop: started with
`retryCount + fuel = retryTimes + 1` and the guard `retryCount ≤ retryTimes`
holding, the loop always returns an outcome (never `undefined`), the
outcome carries the task's filename, and it is either a success outcome
produced by the first succeeding attempt or the exhaustion outcome of
attempt `retryTimes`. -/
theorem uploadFileLoop_spec (retryTimes : Nat) (baseUrl file : String)
    (oracle : AttemptOracle) :
    ∀ fuel retryCount, retryCount + fuel = retryTimes + 1 → retryCount ≤ retryTimes →
      ∃ o, (uploadFileLoop retryTimes baseUrl file oracle fuel retryCount).2 = some o ∧
        o.filename = file ∧
        ((o.status = "success" ∧ o.error = none ∧ retryCount ≤ o.retries ∧
            o.retries ≤ retryTimes ∧
            ∃ src, o.url = some (baseUrl ++ src) ∧ oracle o.retries = Except.ok src) ∨
         (o.status = "error" ∧ o.url = none ∧ o.retries = retryTimes ∧
            ∃ m, o.error = some m ∧ oracle retryTimes = Except.error m)) := by
  intro fuel
  induction fuel with
  | zero => intro retryCount h1 h2; omega
  | succ n ih =>
      intro retryCount h1 h2
      rcases hor : oracle retryCount with msg | src
      · by_cases hrc : retryCount = retryTimes
        · subst hrc
          exact ⟨⟨file, none, "error", some msg, retryCount⟩,
            by simp [uploadFileLoop, hor], rfl,
            Or.inr ⟨rfl, rfl, rfl, msg, rfl, hor⟩⟩
        · have hlt : retryCount < retryTimes := lt_of_le_of_ne h2 hrc
          obtain ⟨o, ho, hname, hcase⟩ := ih (retryCount + 1) (by omega) (by omega)
          refine ⟨o, ?_, hname, ?_⟩
          · simp [uploadFileLoop, hor, hrc, ho]
          · rcases hcase with ⟨hs, he, hge, hle, src, hu, hok⟩ | herr
            · exact Or.inl ⟨hs, he, by omega, hle, src, hu, hok⟩
            · exact Or.inr herr
      · exact ⟨⟨file, some (baseUrl ++ src), "success", none, retryCount⟩,
          by simp [uploadFileLoop, hor], rfl,
          Or.inl ⟨rfl, rfl, le_refl _, h2, src, rfl, hor⟩⟩

/-- `uploadFile` itself (entry `retryCount = 0`) always returns an outcome
satisfying the loop invariants. -/
theorem uploadFile_spec (retryTimes : Nat) (baseUrl file : String)
    (oracle : AttemptOracle) :
    ∃ o, (uploadFile retryTimes baseUrl file oracle).2 = some o ∧
      o.filename = file ∧
      ((o.status = "success" ∧ o.error = none ∧ 0 ≤ o.retries ∧
          o.retries ≤ retryTimes ∧
          ∃ src, o.url = some (baseUrl ++ src) ∧ oracle o.retries = Except.ok src) ∨
       (o.status = "error" ∧ o.url = none ∧ o.retries = retryTimes ∧
          ∃ m, o.error = some m ∧ oracle retryTimes = Except.error m)) :=
  uploadFileLoop_spec retryTimes baseUrl file oracle (retryTimes + 1) 0 (by omega)
    (Nat.zero_le _)

/-- A Telegraph content node as built in `src/app.js`: a JS object
`{tag, attrs?: {src}, children?: [node|string]}` or a bare string child. -/
inductive Node where
  | str (s : String)
  | elem (tag : String) (src : Option String) (children : List Node)
deriving Repr

/-- The figure node built inline in `createTelegraphPage`
(`src/app.js` lines 184-190): `{tag:"figure", children:[{tag:"img",
attrs:{src: img.url}}, {tag:"figcaption", children:[img.filename]}]}`. -/
def figureNodeCreate (img : UploadOutcome) : Node :=
  Node.elem "figure" none
    [Node.elem "img" img.url [], Node.elem "figcaption" none [Node.str img.filename]]

/-- The `content` array built in `createTelegraphPage` (`src/app.js`
lines 182-191): a summary paragraph stating the image count followed by
one figure node per outcome. -/
def pageContent (images : List UploadOutcome) : List Node :=
  Node.elem "p" none
      [Node.str ("共上传 " ++ toString images.length ++ " 张图片")]
    :: images.map figureNodeCreate

/-- The figure node built inline in `main`'s call to `editTelegraphPage`
(`src/app.js` lines 290-296); textually identical to the one in
`createTelegraphPage` but constructed independently. -/
def figureNodeEdit (img : UploadOutcome) : Node :=
  Node.elem "figure" none
    [Node.elem "img" img.url [], Node.elem "figcaption" none [Node.str img.filename]]

/-- The content array `main` passes to `editTelegraphPage`
(`src/app.js` lines 290-297): only the figure nodes, no summary
paragraph. -/
def editContent (images : List UploadOutcome) : List Node :=
  images.map figureNodeEdit

/-- An external HTTP call performed by a run of `main`: one `upload` per
`axios.post` to the image host, plus the three Telegraph API calls with
the content they carry. -/
inductive Call where
  | upload (file : String)
  | createAccount
  | createPage (content : List Node)
  | editPage (content : List Node)
deriving Repr

/-- The environment a run of `main` executes in: the pre-existing
checkpoint file (`CONFIG.RESULT_JSON`, parsed), the image directory
(directory scanning and extension filtering are boundary collaborators
per the design, so `imageDir` is the already-filtered listing, `none`
when the directory is missing), the per-file upload oracles, and the
three Telegraph API responses (`Except.ok` payload for an `ok: true`
response, `Except.error` for a reported error). -/
structure Env where
  checkpoint : Option (List UploadOutcome)
  imageDir : Option (List String)
  oracle : String → AttemptOracle
  accountResp : Except String String
  pageResp : Except String String
  editResp : Except String String

/-- How a run of `main` terminates: `normal` for the "程序正常退出" path,
`errorExit` for `process.exit(1)` (reached directly in `getImageFiles`
or via the top-level `catch`). -/
inductive ExitKind where
  | normal
  | errorExit
deriving Repr, DecidableEq

/-- Observable result of one run of `main`: the external calls performed
in order, the outcome list `main`'s `results` variable holds after the
pipeline/checkpoint step, the succeeded/total pair of the final totals
log line (`none` when that line is never reached or throws), and the
exit kind. -/
structure RunResult where
  calls : List Call
  results : List UploadOutcome
  reportedTotals : Option (Nat × Nat)
  exit : ExitKind

/-- `getImageFiles()` from `src/app.js` at its boundary: missing
directory or an empty filtered listing exits the process (`none`);
otherwise the listing is returned. -/
def getImageFiles (env : Env) : Option (List String) :=
  match env.imageDir with
  | none => none
  | some files => if files.length = 0 then none else some files

/-- Collects the JS `results` array: `concurrentUpload` pushes whatever
`uploadFile` returned, so an `undefined` entry (never produced from
`uploadFile`'s entry point, see `uploadFile_spec`) would poison the
array; this materialises the list of outcomes when all entries are
defined. -/
def collectResults : List (Option UploadOutcome) → Option (List UploadOutcome)
  | [] => some []
  | none :: _ => none
  | some r :: rest => (collectResults rest).map (fun l => r :: l)

/-- Projects the upload HTTP calls out of an event trace: each `start`
event is one `axios.post` to `{BASE_URL}/upload`. -/
def uploadCallsOf (tr : List Ev) : List Call :=
  tr.filterMap fun e =>
    match e with
    | Ev.start f => some (Call.upload f)
    | Ev.finish _ => none

/-- The final totals log of `main` (`src/app.js` lines 307-313):
`成功上传 ${successResults.length}/${imageFiles.length}` dereferences
`imageFiles`, which is still `null` when the run was resumed from a
checkpoint, so that line throws and the top-level `catch` exits with
status 1; otherwise the totals are reported and `main` exits normally. -/
def reportTotals (calls : List Call) (results : List UploadOutcome)
    (imageFiles : Option (List String)) (successResults : List UploadOutcome) :
    RunResult :=
  match imageFiles with
  | none =>
      { calls := calls, results := results, reportedTotals := none,
        exit := ExitKind.errorExit }
  | some files =>
      { calls := calls, results := results,
        reportedTotals := some (successResults.length, files.length),
        exit := ExitKind.normal }

/-- The part of `main` after `results` is settled (`src/app.js` lines
274-313): filter the successes; when there is at least one, run the
two-phase document assembly (`createTelegraphAccount`,
`createTelegraphPage`, `editTelegraphPage`, each of whose failures
re-throws to the top-level `catch`); then the totals log. -/
def afterPipeline (env : Env) (priorCalls : List Call)
    (results : List UploadOutcome) (imageFiles : Option (List String)) :
    RunResult :=
  let successResults := results.filter (fun item => item.status == "success")
  if successResults.length > 0 then
    match env.accountResp with
    | Except.error _ =>
        { calls := priorCalls ++ [Call.createAccount], results := results,
          reportedTotals := none, exit := ExitKind.errorExit }
    | Except.ok _token =>
        match env.pageResp with
        | Except.error _ =>
            { calls := priorCalls ++
                [Call.createAccount, Call.createPage (pageContent successResults)],
              results := results, reportedTotals := none,
              exit := ExitKind.errorExit }
        | Except.ok _pageUrl =>
            match env.editResp with
            | Except.error _ =>
                { calls := priorCalls ++
                    [Call.createAccount, Call.createPage (pageContent successResults),
                     Call.editPage (editContent successResults)],
                  results := results, reportedTotals := none,
                  exit := ExitKind.errorExit }
            | Except.ok _ =>
                reportTotals
                  (priorCalls ++
                    [Call.createAccount, Call.createPage (pageContent successResults),
                     Call.editPage (editContent successResults)])
                  results imageFiles successResults
  else
    reportTotals priorCalls results imageFiles successResults

/-- `main()` from `src/app.js` (lines 245-318): `results` and
`imageFiles` start as `null`; when `CONFIG.RESULT_JSON` does not exist
the pipeline runs and `imageFiles` is populated, otherwise the stored
checkpoint is read back and `imageFiles` stays `null`; then document
assembly and the totals log. -/
def mainRun (retryTimes : Nat) (baseUrl : String) (env : Env) : RunResult :=
  match env.checkpoint with
  | some stored => afterPipeline env [] stored none
  | none =>
      match getImageFiles env with
      | none =>
          { calls := [], results := [], reportedTotals := none,
            exit := ExitKind.errorExit }
      | some files =>
          let run := concurrentUpload retryTimes baseUrl env.oracle files
          match collectResults run.2 with
          | none =>
              { calls := uploadCallsOf run.1, results := [],
                reportedTotals := none, exit := ExitKind.errorExit }
          | some results =>
              afterPipeline env (uploadCallsOf run.1) results (some files)

/-- `const successResults = results.filter((item) => item.status === "success")`
(`src/app.js` line 274), applied to a run's settled outcome list. -/
def successesOf (r : RunResult) : List UploadOutcome :=
  r.results.filter (fun item => item.status == "success")

/-- The `results` array of `concurrentUpload` is the per-task outcomes in
input order: the loop pushes `await uploadFile(files[i], …)` for
`i = 0 … N-1`. -/
theorem concurrentUpload_results (retryTimes : Nat) (baseUrl : String)
    (oracle : String → AttemptOracle) :
    ∀ files : List String,
      (concurrentUpload retryTimes baseUrl oracle files).2 =
        files.map (fun f => (uploadFile retryTimes baseUrl f (oracle f)).2)
  | [] => rfl
  | f :: rest => by
      simp [concurrentUpload,
        concurrentUpload_results retryTimes baseUrl oracle rest]

/-- Claim C1: for every ordered list of N upload tasks the pipeline
produces an ordered list of exactly N outcome records, one per task, with
`outcome[i].filename` equal to `task[i]` (input order preserved). -/
theorem pipeline_preserves_order (retryTimes : Nat) (baseUrl : String)
    (oracle : String → AttemptOracle) (files : List String) :
    (concurrentUpload retryTimes baseUrl oracle files).2.length = files.length ∧
    ∀ i, (h1 : i < (concurrentUpload retryTimes baseUrl oracle files).2.length) →
      (h2 : i < files.length) →
      ∃ o, (concurrentUpload retryTimes baseUrl oracle files).2[i] = some o ∧
        o.filename = files[i] := by
  have e := concurrentUpload_results retryTimes baseUrl oracle files
  constructor
  · rw [e]; simp
  · intro i h1 h2
    obtain ⟨o, ho, hname, -⟩ :=
      uploadFile_spec retryTimes baseUrl files[i] (oracle files[i])
    refine ⟨o, ?_, hname⟩
    simp only [e, List.getElem_map]
    exact ho

/-- Witness for C1 on a concrete two-task batch. -/
theorem pipeline_preserves_order_witness :
    ∃ o, (concurrentUpload 0 "u" (fun _ _ => Except.ok "/s")
        ["a.png", "b.png"]).2[1] = some o ∧ o.filename = "b.png" :=
  (pipeline_preserves_order 0 "u" (fun _ _ => Except.ok "/s")
    ["a.png", "b.png"]).2 1 (by decide) (by decide)

/-- Claim C10: every outcome produced by an upload attempt has status
`success` iff its url is non-null; an `error` outcome carries an error
message and exactly the configured number of retries; a `success` outcome
consumed between 0 and `retryTimes` retries. -/
theorem outcome_invariants (retryTimes : Nat) (baseUrl file : String)
    (oracle : AttemptOracle) (o : UploadOutcome)
    (h : (uploadFile retryTimes baseUrl file oracle).2 = some o) :
    (o.status = "success" ∨ o.status = "error") ∧
    (o.status = "success" ↔ o.url.isSome) ∧
    (o.status = "error" → o.error.isSome ∧ o.retries = retryTimes) ∧
    (o.status = "success" → o.retries ≤ retryTimes) := by
  obtain ⟨o2, ho2, hname, hcase⟩ := uploadFile_spec retryTimes baseUrl file oracle
  rw [h] at ho2
  injection ho2 with ho2
  subst ho2
  have hne : ("success" : String) ≠ "error" := by decide
  rcases hcase with ⟨hs, he, -, hle, src, hu, -⟩ | ⟨hs, hu, hr, m, he, -⟩
  · refine ⟨Or.inl hs, ?_, ?_, fun _ => hle⟩
    · simp [hs, hu]
    · intro herr; rw [hs] at herr; exact absurd herr hne
  · refine ⟨Or.inr hs, ?_, fun _ => ⟨by simp [he], hr⟩, ?_⟩
    · rw [hs, hu]; simp [hne]
    · intro hsucc; rw [hs] at hsucc; exact absurd hsucc.symm hne

/-- Witness for C10 on a first-attempt success. -/
def outcomeW : UploadOutcome := ⟨"a.png", some "b/x", "success", none, 0⟩

/-- Witness for C10: the invariants evaluated on a concrete outcome. -/
theorem outcome_invariants_witness :
    (outcomeW.status = "success" ∨ outcomeW.status = "error") ∧
    (outcomeW.status = "success" ↔ outcomeW.url.isSome) ∧
    (outcomeW.status = "error" → outcomeW.error.isSome ∧ outcomeW.retries = 1) ∧
    (outcomeW.status = "success" → outcomeW.retries ≤ 1) :=
  outcome_invariants 1 "b" "a.png" (fun _ => Except.ok "/x") outcomeW rfl

/-- Helper for C4: when every attempt before `retryTimes` fails and
attempt `retryTimes` succeeds, the loop reaches that attempt and records
`retries = retryTimes`. -/
theorem uploadFileLoop_success_last (retryTimes : Nat) (baseUrl file : String)
    (oracle : AttemptOracle) (src : String)
    (hok : oracle retryTimes = Except.ok src) :
    ∀ fuel rc, rc + fuel = retryTimes + 1 → rc ≤ retryTimes →
      (∀ k, rc ≤ k → k < retryTimes → ∃ m, oracle k = Except.error m) →
      (uploadFileLoop retryTimes baseUrl file oracle fuel rc).2 =
        some ⟨file, some (baseUrl ++ src), "success", none, retryTimes⟩ := by
  intro fuel
  induction fuel with
  | zero => intro rc h1 h2 _; omega
  | succ n ih =>
      intro rc h1 h2 hfail
      by_cases hrc : rc = retryTimes
      · subst hrc; simp [uploadFileLoop, hok]
      · obtain ⟨m, hm⟩ := hfail rc (le_refl rc) (lt_of_le_of_ne h2 hrc)
        simp only [uploadFileLoop, hm, if_neg hrc]
        exact ih (rc + 1) (by omega) (by omega)
          (fun k hk1 hk2 => hfail k (by omega) hk2)

/-- Claim C4: a task whose upload call fails exactly `retryTimes` times
and then succeeds on the next attempt yields a `success` outcome with
`retries = retryTimes`. -/
theorem retry_until_success (retryTimes : Nat) (baseUrl file : String)
    (oracle : AttemptOracle) (src : String)
    (hfail : ∀ k, k < retryTimes → ∃ m, oracle k = Except.error m)
    (hok : oracle retryTimes = Except.ok src) :
    (uploadFile retryTimes baseUrl file oracle).2 =
      some ⟨file, some (baseUrl ++ src), "success", none, retryTimes⟩ :=
  uploadFileLoop_success_last retryTimes baseUrl file oracle src hok
    (retryTimes + 1) 0 (by omega) (Nat.zero_le _)
    (fun k _ hk2 => hfail k hk2)

/-- Oracle for the C4 witness: fails twice, then succeeds. -/
def oracleTwoFails : AttemptOracle :=
  fun k => if k < 2 then Except.error "boom" else Except.ok "/x"

/-- Witness for C4 with `retryTimes = 2`. -/
theorem retry_until_success_witness :
    (uploadFile 2 "b" "a.png" oracleTwoFails).2 =
      some ⟨"a.png", some ("b" ++ "/x"), "success", none, 2⟩ :=
  retry_until_success 2 "b" "a.png" oracleTwoFails "/x"
    (fun k hk => ⟨"boom", by simp [oracleTwoFails, hk]⟩) rfl

/-- Helper for C5: when every attempt up to and including `retryTimes`
fails, the loop exhausts and records the last error message. -/
theorem uploadFileLoop_all_fail (retryTimes : Nat) (baseUrl file : String)
    (oracle : AttemptOracle) (mlast : String)
    (hfail : ∀ k, k ≤ retryTimes → ∃ m, oracle k = Except.error m)
    (hlast : oracle retryTimes = Except.error mlast) :
    ∀ fuel rc, rc + fuel = retryTimes + 1 → rc ≤ retryTimes →
      (uploadFileLoop retryTimes baseUrl file oracle fuel rc).2 =
        some ⟨file, none, "error", some mlast, retryTimes⟩ := by
  intro fuel
  induction fuel with
  | zero => intro rc h1 h2; omega
  | succ n ih =>
      intro rc h1 h2
      by_cases hrc : rc = retryTimes
      · subst hrc; simp [uploadFileLoop, hlast]
      · obtain ⟨m, hm⟩ := hfail rc h2
        simp only [uploadFileLoop, hm, if_neg hrc]
        exact ih (rc + 1) (by omega) (by omega)

/-- Claim C5: a task whose upload call fails `retryTimes + 1` times
yields an `error` outcome with `retries = retryTimes` carrying the last
observed error message; the failure is absorbed into the outcome value
(no exception escapes `uploadFile`), so every sibling task of any batch
still gets its own independent outcome. -/
theorem exhausted_task_absorbed (retryTimes : Nat) (baseUrl file : String)
    (oracle : AttemptOracle) (mlast : String)
    (hfail : ∀ k, k ≤ retryTimes → ∃ m, oracle k = Except.error m)
    (hlast : oracle retryTimes = Except.error mlast) :
    (uploadFile retryTimes baseUrl file oracle).2 =
      some ⟨file, none, "error", some mlast, retryTimes⟩ ∧
    ∀ (orc : String → AttemptOracle) (files : List String),
      (concurrentUpload retryTimes baseUrl orc files).2 =
        files.map (fun g => (uploadFile retryTimes baseUrl g (orc g)).2) :=
  ⟨uploadFileLoop_all_fail retryTimes baseUrl file oracle mlast hfail hlast
      (retryTimes + 1) 0 (by omega) (Nat.zero_le _),
   fun orc files => concurrentUpload_results retryTimes baseUrl orc files⟩

/-- Witness for C5 with `retryTimes = 1` and an always-failing oracle. -/
theorem exhausted_task_absorbed_witness :
    (uploadFile 1 "b" "a.png" (fun _ => Except.error "boom")).2 =
      some ⟨"a.png", none, "error", some "boom", 1⟩ ∧
    (concurrentUpload 1 "b" (fun _ _ => Except.error "boom")
        ["a.png", "c.png"]).2 =
      ["a.png", "c.png"].map
        (fun g => (uploadFile 1 "b" g (fun _ => Except.error "boom")).2) :=
  ⟨(exhausted_task_absorbed 1 "b" "a.png" (fun _ => Except.error "boom") "boom"
      (fun _ _ => ⟨"boom", rfl⟩) rfl).1,
   (exhausted_task_absorbed 1 "b" "a.png" (fun _ => Except.error "boom") "boom"
      (fun _ _ => ⟨"boom", rfl⟩) rfl).2
     (fun _ _ => Except.error "boom") ["a.png", "c.png"]⟩

/-- Whatever assembly branch is taken, `main` never rebinds `results`
after the pipeline/checkpoint step: the settled outcome list of the run
is the one `afterPipeline` was given. -/
theorem afterPipeline_results (env : Env) (priorCalls : List Call)
    (results : List UploadOutcome) (imageFiles : Option (List String)) :
    (afterPipeline env priorCalls results imageFiles).results = results := by
  unfold afterPipeline reportTotals
  dsimp only
  repeat' split
  all_goals rfl

/-- After the pipeline has settled, the only further external calls a run
performs are the three Telegraph assembly calls. -/
theorem afterPipeline_calls_shape (env : Env) (priorCalls : List Call)
    (results : List UploadOutcome) (imageFiles : Option (List String)) :
    ∀ c, c ∈ (afterPipeline env priorCalls results imageFiles).calls →
      c ∈ priorCalls ∨ c = Call.createAccount ∨
      (∃ x, c = Call.createPage x) ∨ ∃ x, c = Call.editPage x := by
  unfold afterPipeline reportTotals
  dsimp only
  repeat' split
  all_goals intro c hc
  all_goals simp at hc
  all_goals aesop

/-- When `imageFiles` is still `null` at the totals step, every assembly
branch ends in the top-level error handler with no totals reported. -/
theorem afterPipeline_no_imageFiles (env : Env) (priorCalls : List Call)
    (results : List UploadOutcome) :
    (afterPipeline env priorCalls results none).exit = ExitKind.errorExit ∧
    (afterPipeline env priorCalls results none).reportedTotals = none := by
  unfold afterPipeline reportTotals
  dsimp only
  repeat' split
  all_goals exact ⟨rfl, rfl⟩

/-- Claim C2: when a checkpoint file exists for the run identity, the
pipeline performs zero upload calls and the run's outcome list is the
stored list verbatim (for any stored list, in particular an all-`error`
one). -/
theorem checkpoint_resume_skips_uploads (retryTimes : Nat) (baseUrl : String)
    (env : Env) (stored : List UploadOutcome)
    (h : env.checkpoint = some stored) :
    (mainRun retryTimes baseUrl env).results = stored ∧
    ∀ f, Call.upload f ∉ (mainRun retryTimes baseUrl env).calls := by
  have hm : mainRun retryTimes baseUrl env = afterPipeline env [] stored none := by
    unfold mainRun; rw [h]
  rw [hm]
  refine ⟨afterPipeline_results env [] stored none, fun f hf => ?_⟩
  rcases afterPipeline_calls_shape env [] stored none (Call.upload f) hf with
    hin | he | ⟨x, he⟩ | ⟨x, he⟩
  · simp at hin
  · simp at he
  · simp at he
  · simp at he

/-- A checkpoint recording total failure: one exhausted outcome. -/
def outcomeErr : UploadOutcome := ⟨"a.png", none, "error", some "Request failed", 10⟩

/-- A run environment resuming from an all-`error` checkpoint. -/
def envResumeErr : Env :=
  ⟨some [outcomeErr], none, fun _ _ => Except.error "offline",
   Except.ok "tok", Except.ok "https://telegra.ph/x-1",
   Except.ok "https://telegra.ph/x-1"⟩

/-- Witness for C2: resuming from the all-`error` checkpoint re-attempts
nothing and returns the stored outcome unchanged. -/
theorem checkpoint_resume_skips_uploads_witness :
    (mainRun CONFIG_RETRY_TIMES CONFIG_BASE_URL envResumeErr).results = [outcomeErr] ∧
    Call.upload "a.png" ∉ (mainRun CONFIG_RETRY_TIMES CONFIG_BASE_URL envResumeErr).calls :=
  ⟨(checkpoint_resume_skips_uploads CONFIG_RETRY_TIMES CONFIG_BASE_URL
      envResumeErr [outcomeErr] rfl).1,
   (checkpoint_resume_skips_uploads CONFIG_RETRY_TIMES CONFIG_BASE_URL
      envResumeErr [outcomeErr] rfl).2 "a.png"⟩

/-- Claim C9: a run resumed from an existing checkpoint never populates
`imageFiles`, so the totals log dereferences `null` and the run
terminates through the top-level error handler with exit status 1 —
whatever the stored outcomes and however the assembly calls went. -/
theorem resumed_run_hits_null_imageFiles (retryTimes : Nat) (baseUrl : String)
    (env : Env) (stored : List UploadOutcome)
    (h : env.checkpoint = some stored) :
    (mainRun retryTimes baseUrl env).exit = ExitKind.errorExit ∧
    (mainRun retryTimes baseUrl env).reportedTotals = none := by
  have hm : mainRun retryTimes baseUrl env = afterPipeline env [] stored none := by
    unfold mainRun; rw [h]
  rw [hm]
  exact afterPipeline_no_imageFiles env [] stored

/-- A successful stored outcome, as a checkpoint would record it. -/
def outcomeOk : UploadOutcome :=
  ⟨"a.png", some "https://im.gurl.eu.org/i/a", "success", none, 0⟩

/-- A resumed run whose checkpoint holds a success and whose three
Telegraph calls all succeed. -/
def envResumeOk : Env :=
  ⟨some [outcomeOk], none, fun _ _ => Except.error "offline",
   Except.ok "tok", Except.ok "https://telegra.ph/x-1",
   Except.ok "https://telegra.ph/x-2"⟩

/-- Witness for C9: even with document assembly fully successful, the
resumed run still exits through the error handler without totals. -/
theorem resumed_run_hits_null_imageFiles_witness :
    (mainRun CONFIG_RETRY_TIMES CONFIG_BASE_URL envResumeOk).exit = ExitKind.errorExit ∧
    (mainRun CONFIG_RETRY_TIMES CONFIG_BASE_URL envResumeOk).reportedTotals = none :=
  resumed_run_hits_null_imageFiles CONFIG_RETRY_TIMES CONFIG_BASE_URL
    envResumeOk [outcomeOk] rfl

/-- Claim C8 (code evaluated at the failing input): on a resumed run with
zero successful stored outcomes, document assembly is indeed skipped
(no external calls at all), but the totals are never reported — the run
exits through the error handler instead of logging `0/total`. -/
theorem zero_success_resumed_run :
    (mainRun CONFIG_RETRY_TIMES CONFIG_BASE_URL envResumeErr).calls = [] ∧
    (mainRun CONFIG_RETRY_TIMES CONFIG_BASE_URL envResumeErr).reportedTotals = none ∧
    (mainRun CONFIG_RETRY_TIMES CONFIG_BASE_URL envResumeErr).exit = ExitKind.errorExit :=
  ⟨rfl, rfl, rfl⟩

/-- Claim C6: for a non-empty outcome list the phase-1 content tree is
one summary paragraph stating the image count followed by exactly one
figure per outcome in order, each figure holding an image node with the
outcome's url and a caption node with the outcome's filename. -/
theorem content_tree_shape (images : List UploadOutcome) (h : images ≠ []) :
    (pageContent images).length = images.length + 1 ∧
    (pageContent images).head? =
      some (Node.elem "p" none
        [Node.str ("共上传 " ++ toString images.length ++ " 张图片")]) ∧
    ∀ i, (h1 : i + 1 < (pageContent images).length) → (h2 : i < images.length) →
      (pageContent images)[i + 1] =
        Node.elem "figure" none
          [Node.elem "img" images[i].url [],
           Node.elem "figcaption" none [Node.str images[i].filename]] := by
  refine ⟨by simp [pageContent], rfl, ?_⟩
  intro i h1 h2
  simp [pageContent, figureNodeCreate]

/-- Maximum number of upload HTTP calls simultaneously in flight at any
point along an event trace, starting with `cur` calls already open. -/
def maxInFlight : Nat → List Ev → Nat
  | cur, [] => cur
  | cur, Ev.start _ :: rest => max (cur + 1) (maxInFlight (cur + 1) rest)
  | cur, Ev.finish _ :: rest => maxInFlight (cur - 1) rest

/-- Each retry-loop trace is a sequence of immediately-settled calls:
prefixed to any continuation it raises the in-flight peak to at most 1
above the continuation's own peak from level 0. -/
theorem uploadFileLoop_trace_serial (retryTimes : Nat) (baseUrl file : String)
    (oracle : AttemptOracle) :
    ∀ fuel rc rest,
      maxInFlight 0 ((uploadFileLoop retryTimes baseUrl file oracle fuel rc).1 ++ rest) ≤
        max 1 (maxInFlight 0 rest) := by
  intro fuel
  induction fuel with
  | zero =>
      intro rc rest
      simpa [uploadFileLoop] using le_max_right 1 (maxInFlight 0 rest)
  | succ n ih =>
      intro rc rest
      rcases hor : oracle rc with m | s
      · by_cases hrc : rc = retryTimes
        · subst hrc
          simp [uploadFileLoop, hor, maxInFlight]
        · have h := ih (rc + 1) rest
          simp only [uploadFileLoop, hor, if_neg hrc] at h ⊢
          simp only [List.cons_append, List.append_eq, maxInFlight,
            Nat.add_sub_cancel] at h ⊢
          omega
      · simp [uploadFileLoop, hor, maxInFlight]

/-- The whole pipeline trace keeps the in-flight peak at 1: task i+1's
first call starts only after task i's last call has settled. -/
theorem concurrentUpload_trace_serial (retryTimes : Nat) (baseUrl : String)
    (oracle : String → AttemptOracle) :
    ∀ (files : List String) (rest : List Ev),
      maxInFlight 0 ((concurrentUpload retryTimes baseUrl oracle files).1 ++ rest) ≤
        max 1 (maxInFlight 0 rest) := by
  intro files
  induction files with
  | nil =>
      intro rest
      simpa [concurrentUpload] using le_max_right 1 (maxInFlight 0 rest)
  | cons f fs ih =>
      intro rest
      have h1 := uploadFileLoop_trace_serial retryTimes baseUrl f (oracle f)
        (retryTimes + 1) 0
        ((concurrentUpload retryTimes baseUrl oracle fs).1 ++ rest)
      have h2 := ih rest
      simp only [concurrentUpload, uploadFile, List.append_assoc] at h1 ⊢
      omega

/-- Claim C3 (what the code actually does): the upload loop awaits each
task before starting the next, so at every point of every pipeline run at
most ONE upload call is in flight — the run is exactly the serialized
K = 1 schedule — while the configured concurrency limit
`CONFIG.CONCURRENCY` is 10 and is never read by the loop. -/
theorem upload_loop_is_sequential (retryTimes : Nat) (baseUrl : String)
    (oracle : String → AttemptOracle) (files : List String) :
    maxInFlight 0 (concurrentUpload retryTimes baseUrl oracle files).1 ≤ 1 ∧
    CONFIG_CONCURRENCY = 10 := by
  constructor
  · have h := concurrentUpload_trace_serial retryTimes baseUrl oracle files []
    simpa [maxInFlight] using h
  · rfl

/-- Claim C7 counterexample: on a concrete resumed run with one stored
success and all three Telegraph calls succeeding, the content passed to
the phase-1 create and the content passed to the phase-2 rewrite are NOT
the same tree — phase 2 receives one fewer node. -/
theorem phase_contents_differ :
    (mainRun CONFIG_RETRY_TIMES CONFIG_BASE_URL envResumeOk).calls =
      [Call.createAccount, Call.createPage (pageContent [outcomeOk]),
       Call.editPage (editContent [outcomeOk])] ∧
    pageContent [outcomeOk] ≠ editContent [outcomeOk] := by
  refine ⟨rfl, fun hEq => ?_⟩
  have hLen := congrArg List.length hEq
  simp [pageContent, editContent] at hLen

/-- The two inline figure constructions (`createTelegraphPage` lines
184-190 and `main` lines 290-296) are the same function. -/
theorem figure_nodes_agree : figureNodeCreate = figureNodeEdit := rfl

/-- The phase-1 content is the summary paragraph consed onto exactly the
phase-2 content for the same outcome list. -/
theorem pageContent_splits (images : List UploadOutcome) :
    pageContent images =
      Node.elem "p" none
          [Node.str ("共上传 " ++ toString images.length ++ " 张图片")]
        :: editContent images := by
  simp [pageContent, editContent, figure_nodes_agree]

/-- The pipeline's own trace contains only upload calls. -/
theorem uploadCallsOf_only_uploads (tr : List Ev) :
    ∀ c, c ∈ uploadCallsOf tr → ∃ f, c = Call.upload f := by
  induction tr with
  | nil => intro c hc; simp [uploadCallsOf] at hc
  | cons e rest ih =>
      intro c hc
      cases e with
      | start f =>
          rcases (by simpa [uploadCallsOf] using hc : c = Call.upload f ∨
            c ∈ uploadCallsOf rest) with h | h
          · exact ⟨f, h⟩
          · exact ih c h
      | finish f => exact ih c (by simpa [uploadCallsOf] using hc)

/-- Inversion for the assembly step: if a run performed the phase-2 edit,
the edit carried `editContent` of the filtered successes of the settled
outcome list, and the phase-1 create with `pageContent` of the very same
list is also among the run's calls. -/
theorem afterPipeline_editPage (env : Env) (priorCalls : List Call)
    (results : List UploadOutcome) (imageFiles : Option (List String))
    (c : List Node)
    (hp : ∀ x, Call.editPage x ∉ priorCalls)
    (h : Call.editPage c ∈ (afterPipeline env priorCalls results imageFiles).calls) :
    c = editContent (results.filter (fun item => item.status == "success")) ∧
    Call.createPage (pageContent (results.filter (fun item => item.status == "success")))
      ∈ (afterPipeline env priorCalls results imageFiles).calls := by
  unfold afterPipeline reportTotals at h ⊢
  dsimp only at h ⊢
  by_cases hs : 0 < (results.filter (fun item => item.status == "success")).length
  · rcases ha : env.accountResp with ea | ta
    · simp only [if_pos hs, ha] at h
      rw [List.mem_append] at h
      rcases h with h | h
      · exact absurd h (hp c)
      · simp at h
    · rcases hb : env.pageResp with eb | tb
      · simp only [if_pos hs, ha, hb] at h
        rw [List.mem_append] at h
        rcases h with h | h
        · exact absurd h (hp c)
        · simp at h
      · rcases hc : env.editResp with ec | tc
        · simp only [if_pos hs, ha, hb, hc] at h ⊢
          rw [List.mem_append] at h
          rcases h with h | h
          · exact absurd h (hp c)
          · simp at h
            exact ⟨h, by simp⟩
        · rcases imageFiles with - | files
          all_goals
            simp only [if_pos hs, ha, hb, hc] at h ⊢
            rw [List.mem_append] at h
            rcases h with h | h
            · exact absurd h (hp c)
            · simp at h
              exact ⟨h, by simp⟩
  · rcases imageFiles with - | files
    all_goals
      simp only [if_neg hs] at h
      exact absurd h (hp c)

/-- Claim C7 (amended): whenever a run performs the phase-2 rewrite, the
phase-1 create was performed with content recomputed from the very same
unchanged successful-outcome list, and the phase-2 content is exactly the
figure-node portion of the phase-1 content, in the same order — the
phase-1 content being the summary paragraph consed onto it. -/
theorem phase2_content_is_phase1_figures (retryTimes : Nat) (baseUrl : String)
    (env : Env) (c : List Node)
    (h : Call.editPage c ∈ (mainRun retryTimes baseUrl env).calls) :
    Call.createPage (pageContent (successesOf (mainRun retryTimes baseUrl env)))
      ∈ (mainRun retryTimes baseUrl env).calls ∧
    c = editContent (successesOf (mainRun retryTimes baseUrl env)) ∧
    pageContent (successesOf (mainRun retryTimes baseUrl env)) =
      Node.elem "p" none
          [Node.str ("共上传 " ++
            toString (successesOf (mainRun retryTimes baseUrl env)).length ++
            " 张图片")]
        :: editContent (successesOf (mainRun retryTimes baseUrl env)) := by
  rcases hcp : env.checkpoint with - | stored
  · rcases hgi : getImageFiles env with - | files
    · simp only [mainRun, hcp, hgi] at h
      simp at h
    · rcases hcol : collectResults
        (concurrentUpload retryTimes baseUrl env.oracle files).2 with - | results
      · have hm : mainRun retryTimes baseUrl env =
            { calls := uploadCallsOf
                (concurrentUpload retryTimes baseUrl env.oracle files).1,
              results := [], reportedTotals := none,
              exit := ExitKind.errorExit } := by
          simp [mainRun, hcp, hgi, hcol]
        rw [hm] at h
        obtain ⟨f, hf⟩ := uploadCallsOf_only_uploads _ _ h
        simp at hf
      · have hm : mainRun retryTimes baseUrl env =
            afterPipeline env
              (uploadCallsOf (concurrentUpload retryTimes baseUrl env.oracle files).1)
              results (some files) := by
          simp [mainRun, hcp, hgi, hcol]
        rw [hm] at h ⊢
        have hpc : ∀ x, Call.editPage x ∉
            uploadCallsOf (concurrentUpload retryTimes baseUrl env.oracle files).1 := by
          intro x hx
          obtain ⟨f, hf⟩ := uploadCallsOf_only_uploads _ _ hx
          simp at hf
        have hres : successesOf (afterPipeline env
            (uploadCallsOf (concurrentUpload retryTimes baseUrl env.oracle files).1)
            results (some files)) =
            results.filter (fun item => item.status == "success") := by
          simp [successesOf, afterPipeline_results]
        obtain ⟨h1, h2⟩ := afterPipeline_editPage env _ results (some files) c hpc h
        rw [hres]
        exact ⟨h2, h1, pageContent_splits _⟩
  · have hm : mainRun retryTimes baseUrl env = afterPipeline env [] stored none := by
      simp [mainRun, hcp]
    rw [hm] at h ⊢
    have hres : successesOf (afterPipeline env [] stored none) =
        stored.filter (fun item => item.status == "success") := by
      simp [successesOf, afterPipeline_results]
    obtain ⟨h1, h2⟩ := afterPipeline_editPage env [] stored none c (by simp) h
    rw [hres]
    exact ⟨h2, h1, pageContent_splits _⟩

/-- Witness for the amended C7 on the concrete resumed run whose three
Telegraph calls succeed. -/
theorem phase2_content_is_phase1_figures_witness :
    Call.createPage (pageContent (successesOf
        (mainRun CONFIG_RETRY_TIMES CONFIG_BASE_URL envResumeOk)))
      ∈ (mainRun CONFIG_RETRY_TIMES CONFIG_BASE_URL envResumeOk).calls ∧
    editContent [outcomeOk] = editContent (successesOf
        (mainRun CONFIG_RETRY_TIMES CONFIG_BASE_URL envResumeOk)) ∧
    pageContent (successesOf (mainRun CONFIG_RETRY_TIMES CONFIG_BASE_URL envResumeOk)) =
      Node.elem "p" none
          [Node.str ("共上传 " ++
            toString (successesOf
              (mainRun CONFIG_RETRY_TIMES CONFIG_BASE_URL envResumeOk)).length ++
            " 张图片")]
        :: editContent (successesOf
            (mainRun CONFIG_RETRY_TIMES CONFIG_BASE_URL envResumeOk)) :=
  phase2_content_is_phase1_figures CONFIG_RETRY_TIMES CONFIG_BASE_URL envResumeOk
    (editContent [outcomeOk])
    (List.Mem.tail _ (List.Mem.tail _ (List.Mem.head _)))

/-- Witness for C6 on a one-outcome list: the node after the summary
paragraph is the figure for that outcome. -/
theorem content_tree_shape_witness :
    (pageContent [outcomeOk]).get ⟨1, by decide⟩ =
      Node.elem "figure" none
        [Node.elem "img" outcomeOk.url [],
         Node.elem "figcaption" none [Node.str outcomeOk.filename]] :=
  (content_tree_shape [outcomeOk] (by decide)).2.2 0 (by decide) (by decide)
